import Mathlib

/-
Shallow embedding of the geometric effects engine of the crithitmaps battle-map
editor (src/App.jsx).  The source file contains two evolutionary snapshots of
the same program, separated at line 1435; where the two snapshots define
different versions of a helper, the later snapshot's version keeps the source
name and the earlier snapshot's version carries the suffix V1.

Modelling conventions:
- JavaScript numbers are modelled as exact rationals.  The literals 1e-6,
  1e-9, 1.01, 0.01, 0.5 are written 1/1000000, 1/1000000000, 101/100, 1/100,
  1/2.
- Comparisons of Math.hypot values are encoded by equivalent polynomial
  comparisons so that every definition stays executable over the rationals:
  for c >= 0, hypot(dx,dy) <= c iff dx^2 + dy^2 <= c^2, and
  sqrt a <= sqrt b + c iff (a - b - c^2 <= 0 or (a - b - c^2)^2 <= 4*c^2*b);
  the lemma sqrtLeSqrtAdd_iff_sqrt below proves the second encoding correct
  against the real square root.
- The earlier snapshot's cone test compares a Math.acos angle against an
  additive tolerance, which has no exact rational form, so that single
  function is embedded over the reals as a Prop (tokenInsideConeV1).
- JavaScript objects that may be absent (a deleted owner token, a missing
  aura key, a non-finite numeric field) are modelled with Option.
-/

namespace CritHitMaps

/-- World point in cell units, as the source's record with fields gx, gy. -/
structure Pt where
  gx : ℚ
  gy : ℚ
deriving DecidableEq

/-- Raw element of a token's auraPresets array (second snapshot).
key = none models a missing or non-string key (the source filter
"typeof e.key === string"); r = none and value = none model non-finite
numbers (the source guards with Number.isFinite). -/
structure RawAuraEntry where
  key : Option String
  r : Option ℚ
  affects : String
  name : String
  effects : List String
  value : Option ℚ
deriving DecidableEq

/-- Token record (second snapshot).  Cell position is the integer-valued pair
(x, y) stored as JS numbers; the geometric center is (x + 1/2, y + 1/2).
The legacy single-aura fields auraRadiusCells, auraPreset, auraAffects,
auraName, auraEffects, auraPresetValue coexist with the preferred
auraPresets array.  An absent string field is modelled as "" (falsy), an
absent auraRadiusCells as 0, an absent initiative as 0 (the source reads
initiative with "?? 0"). -/
structure Token where
  id : String
  name : String
  isEnemy : Bool
  x : ℚ
  y : ℚ
  conditions : List String
  initiative : Int
  auraPresets : List RawAuraEntry
  auraRadiusCells : ℚ
  auraPreset : String
  auraAffects : String
  auraName : String
  auraEffects : List String
  auraPresetValue : Option ℚ
deriving DecidableEq

/-- Lingering AOE zone record.  The source field named end is a Lean keyword
and is embedded as end_.  An absent affects is modelled as "" (the source
reads it as aoe.affects || "all"); an absent label as "". -/
structure AOE where
  id : String
  ownerId : String
  type : String
  start : Pt
  end_ : Pt
  enabled : Bool
  label : String
  affects : String
  effects : List String
deriving DecidableEq

/-- View record: zoom factor and pan offsets (source fields zoom, offsetX,
offsetY). -/
structure View where
  zoom : ℚ
  offsetX : ℚ
  offsetY : ℚ
deriving DecidableEq

/-- Grid record; only sizePx (cell size in CSS pixels) enters the coordinate
mapper. -/
structure Grid where
  sizePx : ℚ
deriving DecidableEq

/-- Coordinate mapper, world to screen (App.jsx lines 3252-3258):
cell = grid.sizePx * view.zoom * dpr;
(gx * cell + view.offsetX * dpr, gy * cell + view.offsetY * dpr). -/
def worldToScreenPx (gx gy : ℚ) (view : View) (grid : Grid) (dpr : ℚ) : ℚ × ℚ :=
  let cell := grid.sizePx * view.zoom * dpr
  (gx * cell + view.offsetX * dpr, gy * cell + view.offsetY * dpr)

/-- Coordinate mapper, screen to world (App.jsx lines 3259-3265). -/
def screenPxToWorld (sx sy : ℚ) (view : View) (grid : Grid) (dpr : ℚ) : ℚ × ℚ :=
  let cell := grid.sizePx * view.zoom * dpr
  ((sx - view.offsetX * dpr) / cell, (sy - view.offsetY * dpr) / cell)

/-- Math.abs as the conditional it computes. -/
def absQ (x : ℚ) : ℚ :=
  if x < 0 then -x else x

/-- Math.max on two numbers. -/
def maxQ (x y : ℚ) : ℚ :=
  if x < y then y else x

/-- Math.min on two numbers. -/
def minQ (x y : ℚ) : ℚ :=
  if x < y then x else y

/-- Squared distance from a token's center (x + 1/2, y + 1/2) to a world
point; the source computes Math.hypot of the two differences. -/
def centerDistSq (token : Token) (center : Pt) : ℚ :=
  (token.x + 1/2 - center.gx) ^ 2 + (token.y + 1/2 - center.gy) ^ 2

/-- Squared distance between two world points. -/
def ptDistSq (p q : Pt) : ℚ :=
  (q.gx - p.gx) ^ 2 + (q.gy - p.gy) ^ 2

/-- tokenInsideCircle (App.jsx lines 3648-3652): the source returns
Math.hypot(dx, dy) <= radiusCells + 1e-6; for a nonnegative bound this is
equivalent to the squared comparison used here, and for a negative bound the
source comparison is false because hypot is nonnegative, which the first
conjunct captures. -/
def tokenInsideCircle (token : Token) (center : Pt) (radiusCells : ℚ) : Bool :=
  if 0 ≤ radiusCells + 1/1000000 ∧
      centerDistSq token center ≤ (radiusCells + 1/1000000) ^ 2
  then true else false

/-- Rational encoding of "sqrt a <= sqrt b + c" for nonnegative a, b, c;
used where the source compares one Math.hypot value against another plus a
tolerance.  Proven correct against Real.sqrt in sqrtLeSqrtAdd_iff_sqrt. -/
def sqrtLeSqrtAdd (a b c : ℚ) : Bool :=
  if a - b - c ^ 2 ≤ 0 ∨ (a - b - c ^ 2) ^ 2 ≤ 4 * c ^ 2 * b then true else false

/-- Normalized aura entry as produced by getTokenAuraEntries. -/
structure AuraEntry where
  key : String
  r : ℚ
  affects : String
  name : String
  effects : List String
  value : Option ℚ
deriving DecidableEq

/-- getTokenAuraEntries (App.jsx lines 3484-3515).  Preferred path: a
non-empty auraPresets array, filtered to entries with a string key, with
r defaulting to 2 when non-finite and affects validated against the three
legal values.  Fallback path: the legacy single-aura fields, used only when
auraRadiusCells > 0 and auraPreset is truthy and not "none". -/
def getTokenAuraEntries (t : Token) : List AuraEntry :=
  if t.auraPresets ≠ [] then
    t.auraPresets.filterMap fun e =>
      match e.key with
      | none => none
      | some k =>
          some { key := k
                 r := e.r.getD 2
                 affects :=
                   if e.affects = "all" ∨ e.affects = "allies" ∨ e.affects = "enemies"
                   then e.affects else "allies"
                 name := e.name
                 effects := e.effects
                 value := e.value }
  else if 0 < t.auraRadiusCells ∧ t.auraPreset ≠ "" ∧ t.auraPreset ≠ "none" then
    [{ key := t.auraPreset
       r := t.auraRadiusCells
       affects := if t.auraAffects = "" then "allies" else t.auraAffects
       name := t.auraName
       effects := t.auraEffects
       value := t.auraPresetValue }]
  else []

/-- Aura source record of the aura index (App.jsx lines 3517-3538). -/
structure Aura where
  ownerId : String
  ownerName : String
  ownerIsEnemy : Bool
  affects : String
  r : ℚ
  x : ℚ
  y : ℚ
  preset : String
  presetValue : Option ℚ
  name : String
  effects : List String
deriving DecidableEq

/-- computeAuraIndex (App.jsx lines 3517-3538): flattens every token's aura
entries into aura sources anchored at the owner's current cell.  The source
reads e.affects || "allies", modelled by the empty-string test. -/
def computeAuraIndex (tokens : List Token) : List Aura :=
  tokens.flatMap fun t =>
    (getTokenAuraEntries t).map fun e =>
      { ownerId := t.id
        ownerName := t.name
        ownerIsEnemy := t.isEnemy
        affects := if e.affects = "" then "allies" else e.affects
        r := e.r
        x := t.x
        y := t.y
        preset := e.key
        presetValue := e.value
        name := e.name
        effects := e.effects }

/-- isAllyOf (App.jsx lines 3640-3642): equal coerced isEnemy flags.  The
null checks on the arguments are handled at the call sites that may pass a
missing owner (see isAffectedBy). -/
def isAllyOf (a b : Token) : Bool :=
  a.isEnemy == b.isEnemy

/-- isAffectedBy (App.jsx lines 3643-3647): "all" always passes; a missing
owner fails every other filter; any affects value other than "all" and
"allies" behaves like "enemies" in the source's ternary. -/
def isAffectedBy (affects : String) (owner : Option Token) (target : Token) : Bool :=
  if affects = "all" then true
  else
    match owner with
    | none => false
    | some o => if affects = "allies" then isAllyOf o target else !(isAllyOf o target)

/-- Squared distPointToSegment (App.jsx lines 3653-3663): clamped projection
onto the segment; ab2 carries the source's || 1e-9 guard against a
zero-length segment.  The parameter named by in the source is a Lean keyword
and is embedded as byy. -/
def distPointToSegmentSq (px py ax ay bx byy : ℚ) : ℚ :=
  let abx := bx - ax
  let aby := byy - ay
  let apx := px - ax
  let apy := py - ay
  let ab2 := if abx ^ 2 + aby ^ 2 = 0 then 1/1000000000 else abx ^ 2 + aby ^ 2
  let tt := max 0 (min 1 ((apx * abx + apy * aby) / ab2))
  let cx := ax + tt * abx
  let cy := ay + tt * aby
  (px - cx) ^ 2 + (py - cy) ^ 2

/-- tokenInsideLine (App.jsx lines 3664-3669): the source compares the
point-to-segment distance with halfWidthCells + 1e-6; encoded by the squared
comparison together with nonnegativity of the bound. -/
def tokenInsideLine (token : Token) (start end_ : Pt) (halfWidthCells : ℚ) : Bool :=
  let c := halfWidthCells + 1/1000000
  if 0 ≤ c ∧
      distPointToSegmentSq (token.x + 1/2) (token.y + 1/2)
        start.gx start.gy end_.gx end_.gy ≤ c ^ 2
  then true else false

/-- tokenInsideCone, second snapshot (App.jsx lines 3670-3684), specialized
to the 60 degree spread which is the only value the program ever passes
(the call at line 3618 and the default parameter).  Encoding of the source
over the rationals:
- vlen = Math.hypot(vx, vy) || 1e-9 is carried as its square vlenSq;
- ulen < 1e-6 (the early true branch for a point at the apex) becomes
  uSq < (1e-6)^2;
- angle <= half, with angle = acos(clamp(dot/(vlen*ulen))) and
  half = 30 degrees, is equivalent to dot/(vlen*ulen) >= cos(30 degrees)
  = sqrt(3)/2 because acos is antitone, i.e. to
  0 <= dot and 3*vlenSq*uSq <= 4*dot^2;
- ulen <= vlen + 1e-6 becomes sqrtLeSqrtAdd uSq vlenSq (1e-6). -/
def tokenInsideCone (token : Token) (start end_ : Pt) : Bool :=
  let px := token.x + 1/2
  let py := token.y + 1/2
  let vx := end_.gx - start.gx
  let vy := end_.gy - start.gy
  let ux := px - start.gx
  let uy := py - start.gy
  let vSq := vx ^ 2 + vy ^ 2
  let uSq := ux ^ 2 + uy ^ 2
  let vlenSq := if vSq = 0 then (1/1000000000 : ℚ) ^ 2 else vSq
  if uSq < (1/1000000 : ℚ) ^ 2 then true
  else
    let dot := vx * ux + vy * uy
    (if 0 ≤ dot ∧ 3 * (vlenSq * uSq) ≤ 4 * dot ^ 2 then true else false) &&
      sqrtLeSqrtAdd uSq vlenSq (1/1000000)

/-- tokenInsideCone of the earlier snapshot (App.jsx lines 1352-1363).  This
version has no early return for a zero-length apex vector: it computes
cos = dot / (lenV * lenU || 1e-9), angle = acos(clamp(cos)) and returns
angle <= half + 1e-6 (after the length check lenU > lenV + 1e-6 returned
false).  The additive tolerance on the acos angle has no exact rational
form, so this one function is embedded over the reals as a Prop. -/
def tokenInsideConeV1 (token : Token) (start end_ : Pt) (spreadDeg : ℚ) : Prop :=
  let px : ℝ := (token.x : ℝ) + 1/2
  let py : ℝ := (token.y : ℝ) + 1/2
  let vx : ℝ := (end_.gx : ℝ) - (start.gx : ℝ)
  let vy : ℝ := (end_.gy : ℝ) - (start.gy : ℝ)
  let ux : ℝ := px - (start.gx : ℝ)
  let uy : ℝ := py - (start.gy : ℝ)
  let lenV0 := Real.sqrt (vx ^ 2 + vy ^ 2)
  let lenV := if lenV0 = 0 then 1/1000000000 else lenV0
  let lenU := Real.sqrt (ux ^ 2 + uy ^ 2)
  if lenU > lenV + 1/1000000 then False
  else
    let denom0 := lenV * lenU
    let denom := if denom0 = 0 then 1/1000000000 else denom0
    let cosv := (vx * ux + vy * uy) / denom
    let angle := Real.arccos (max (-1) (min 1 cosv))
    let half := ((spreadDeg : ℝ) * Real.pi / 180) / 2
    angle ≤ half + 1/1000000

/-- sign1 (App.jsx line 3687). -/
def sign1 (n : ℚ) : Int :=
  if 0 < n then 1 else if n < 0 then -1 else 0

/-- isAdjacentCells (App.jsx lines 3688-3691): Chebyshev distance exactly 1. -/
def isAdjacentCells (a b : Token) : Bool :=
  if maxQ (absQ (a.x - b.x)) (absQ (a.y - b.y)) = 1 then true else false

/-- isOppositeAroundTarget (App.jsx lines 3692-3699). -/
def isOppositeAroundTarget (target a b : Token) : Bool :=
  if isAdjacentCells target a && isAdjacentCells target b then
    let dx1 := sign1 (a.x - target.x)
    let dy1 := sign1 (a.y - target.y)
    let dx2 := sign1 (b.x - target.x)
    let dy2 := sign1 (b.y - target.y)
    if dx1 = 0 ∧ dy1 = 0 then false
    else if dx1 = -dx2 ∧ dy1 = -dy2 then true else false
  else false

/-- Pairwise double loop of isFlanked (App.jsx lines 3703-3707): tests every
unordered pair of the list in source order. -/
def anyOppositePair (target : Token) : List Token → Bool
  | [] => false
  | x :: xs => xs.any (fun y => isOppositeAroundTarget target x y) || anyOppositePair target xs

/-- isFlanked (App.jsx lines 3700-3709). -/
def isFlanked (target : Token) (tokens : List Token) : Bool :=
  anyOppositePair target (tokens.filter fun u => !(isAllyOf u target))

/-- attackerHasFlankingAdv (App.jsx lines 3710-3717).  The null checks on
attacker and target are vacuous in the embedding since both are records. -/
def attackerHasFlankingAdv (attacker target : Token) (tokens : List Token) : Bool :=
  !(isAllyOf attacker target) && isAdjacentCells attacker target &&
    (tokens.filter fun tk => tk.id != attacker.id && isAllyOf tk attacker).any
      fun b => isOppositeAroundTarget target attacker b

/-- Object.fromEntries(tokens.map(t => [t.id, t])) (App.jsx line 3542) as a
lookup: a later token with the same id overwrites an earlier one. -/
def byId (tokens : List Token) (i : String) : Option Token :=
  tokens.foldl (fun acc t => if t.id = i then some t else acc) none

/-- Canonical strings of the preset switch in computeTokenEffects
(App.jsx lines 3554-3597); an unknown preset emits nothing.  The paladin
bonus defaults to 3 when presetValue is not finite. -/
def presetEffectStrings (a : Aura) : List String :=
  let owner := a.ownerName
  match a.preset with
  | "paladin" =>
      let bonus := a.presetValue.getD 3
      [s!"+{bonus} to all saving throws (Aura of Protection – {owner})"]
  | "bless" => [s!"+1d4 to attack rolls & saving throws (Bless – {owner})"]
  | "bane" => [s!"-1d4 to attack rolls & saving throws (Bane – {owner})"]
  | "prot-evil-good" => [s!"Disadvantage for certain types to attack (Prot. Evil/Good – {owner})"]
  | "spirit-guardians" => [s!"Takes damage on start; difficult terrain (Spirit Guardians – {owner})"]
  | "aura-warding" => [s!"Resistance to spell damage (Aura of Warding – {owner})"]
  | "beacon-of-hope" => [s!"Adv. WIS/Death saves; max healing (Beacon of Hope – {owner})"]
  | "haste-lite" => [s!"+2 AC; advantage on DEX saves (Haste – {owner})"]
  | _ => []

/-- Contribution of one aura source to one token (the aura loop of
computeTokenEffects, App.jsx lines 3548-3600): allegiance filter, circle
membership around the owner's center, then the preset strings, the aura
name tagged with the owner, and the custom effect strings, in that order. -/
def auraContribution (lookup : String → Option Token) (t : Token) (a : Aura) : List String :=
  if isAffectedBy a.affects (lookup a.ownerId) t then
    if tokenInsideCircle t ⟨a.x + 1/2, a.y + 1/2⟩ a.r then
      presetEffectStrings a ++
        (if a.name ≠ "" then
          [let n := a.name
           let o := a.ownerName
           s!"{n} ({o})"] else []) ++
        a.effects
    else []
  else []

/-- Contribution of one lingering zone to one token (the zone loop of
computeTokenEffects, App.jsx lines 3603-3624): skip when disabled, apply the
allegiance filter with affects defaulting to "all", dispatch the membership
test on the shape kind (a circle zone's radius is the distance between its
anchors, hence the sqrt-against-sqrt encoding), then emit the label (when
non-empty) followed by the custom effect strings. -/
def zoneContribution (lookup : String → Option Token) (t : Token) (aoe : AOE) : List String :=
  if aoe.enabled then
    if isAffectedBy (if aoe.affects = "" then "all" else aoe.affects) (lookup aoe.ownerId) t then
      let inside :=
        if aoe.type = "circle" then
          sqrtLeSqrtAdd (centerDistSq t aoe.start) (ptDistSq aoe.start aoe.end_) (1/1000000)
        else if aoe.type = "line" then
          tokenInsideLine t aoe.start aoe.end_ (1/2)
        else if aoe.type = "cone" then
          tokenInsideCone t aoe.start aoe.end_
        else false
      if inside then (if aoe.label ≠ "" then [aoe.label] else []) ++ aoe.effects
      else []
    else []
  else []

/-- Fixed flanking advisory pushed by computeTokenEffects (App.jsx line 3631). -/
def flankedAdvisory : String :=
  "Flanked: enemies have advantage on melee attacks"

/-- Effect list of a single token: the four push phases of the per-token body
of computeTokenEffects (App.jsx lines 3544-3634), written as successive
folds over the single accumulating array the source mutates. -/
def effectsForToken (tokens : List Token) (auras : List Aura) (aoes : List AOE)
    (t : Token) : List String :=
  let lookup := byId tokens
  let e1 := auras.foldl (fun acc a => acc ++ auraContribution lookup t a) []
  let e2 := aoes.foldl (fun acc z => acc ++ zoneContribution lookup t z) e1
  let e3 := t.conditions.foldl (fun acc c => acc ++ [c]) e2
  if isFlanked t tokens then e3 ++ [flankedAdvisory] else e3

/-- computeTokenEffects (App.jsx lines 3540-3637).  The source returns an
object keyed by token id; the embedding returns the association list in
token order (for duplicate ids the source object keeps the entry of the
last token, matching byId). -/
def computeTokenEffects (tokens : List Token) (auras : List Aura) (aoes : List AOE) :
    List (String × List String) :=
  tokens.map fun t => (t.id, effectsForToken tokens auras aoes t)

/-- Insertion into a JS Set modelled as an insertion-ordered duplicate-free
list. -/
def addSet (l : List String) (x : String) : List String :=
  if x ∈ l then l else l ++ [x]

/-- computeHighlightTargets of the earlier snapshot (App.jsx lines
1393-1411): with an "Advantage (attacks)" tag every enemy is added; with a
"Sneak Attack Ready" tag an enemy is added only when some other non-enemy
token is within Euclidean distance 1.01 of it (Math.hypot <= 1.01, encoded
squared). -/
def computeHighlightTargetsV1 (selectedToken : Token) (tokens : List Token) : List String :=
  let hasAdv := selectedToken.conditions.contains "Advantage (attacks)"
  let hasSneak := selectedToken.conditions.contains "Sneak Attack Ready"
  let out1 :=
    if hasAdv then
      tokens.foldl (fun acc t => if t.isEnemy then addSet acc t.id else acc) []
    else []
  if hasSneak then
    (tokens.filter fun t => t.isEnemy).foldl
      (fun acc enemy =>
        if hasAdv then addSet acc enemy.id
        else if tokens.any fun p =>
            !p.isEnemy && p.id != selectedToken.id &&
              (if (p.x - enemy.x) ^ 2 + (p.y - enemy.y) ^ 2 ≤ (101/100) ^ 2
                then true else false) then
          addSet acc enemy.id
        else acc)
      out1
  else out1

/-- computeHighlightTargets of the later snapshot (App.jsx lines 3719-3736):
for every other token of opposite allegiance, add it when the selected token
carries a "Sneak Attack Ready" or "Advantage (attacks)" tag, and also when
attackerHasFlankingAdv holds. -/
def computeHighlightTargets (selectedToken : Token) (tokens : List Token) : List String :=
  let hasSA := selectedToken.conditions.contains "Sneak Attack Ready"
  let hasAdvTag := selectedToken.conditions.contains "Advantage (attacks)"
  tokens.foldl
    (fun acc t =>
      if t.id = selectedToken.id then acc
      else if t.isEnemy != selectedToken.isEnemy then
        let acc1 := if hasSA || hasAdvTag then addSet acc t.id else acc
        if attackerHasFlankingAdv selectedToken t tokens then addSet acc1 t.id else acc1
      else acc)
    []

/-- Cell-center snap used by the zone drag, const snap = v => Math.floor(v)
+ 0.5 (App.jsx line 1910). -/
def snapCellCenter (v : ℚ) : ℚ :=
  (⌊v⌋ : ℚ) + 1/2

/-- One step of the zone-drag update in onPointerMove (App.jsx lines
1904-1930): the pointer's world position and the drag-start world position
are floored to cells, their difference translates both recorded anchors,
and each translated coordinate is re-snapped to a cell center. -/
def dragAOEUpdate (startAOE : Pt × Pt) (startMouseWorld world : ℚ × ℚ) : Pt × Pt :=
  let dxCells : ℤ := ⌊world.1⌋ - ⌊startMouseWorld.1⌋
  let dyCells : ℤ := ⌊world.2⌋ - ⌊startMouseWorld.2⌋
  (⟨snapCellCenter (startAOE.1.gx + dxCells), snapCellCenter (startAOE.1.gy + dyCells)⟩,
   ⟨snapCellCenter (startAOE.2.gx + dxCells), snapCellCenter (startAOE.2.gy + dyCells)⟩)

/-- Initiative order (App.jsx lines 1551-1555): a stable sort by initiative
descending.  ECMAScript requires Array.prototype.sort to be stable, and the
comparator (b.initiative ?? 0) - (a.initiative ?? 0) orders by initiative
descending with ties left in original order; insertionSort with the
non-strict descending relation realizes exactly that ordering. -/
def sortedTokens (tokens : List Token) : List Token :=
  List.insertionSort (fun u v => v.initiative ≤ u.initiative) tokens

/-- Turn-cursor clamp (App.jsx lines 1557-1561): cursor 0 on an empty order,
otherwise min(cursor, length - 1). -/
def clampTurnIndex (i len : Nat) : Nat :=
  if len = 0 then 0 else min i (len - 1)

/-- Token constructor filling the fields that a given scenario leaves at
their absent-field defaults. -/
def mkToken (id name : String) (isEnemy : Bool) (x y : ℚ)
    (conditions : List String) (initiative : Int) : Token :=
  { id := id
    name := name
    isEnemy := isEnemy
    x := x
    y := y
    conditions := conditions
    initiative := initiative
    auraPresets := []
    auraRadiusCells := 0
    auraPreset := ""
    auraAffects := ""
    auraName := ""
    auraEffects := []
    auraPresetValue := none }

/-- Scenario token with initiative 15 for the turn-order claim. -/
def tokenInit15 : Token := mkToken "A15" "Alpha" false 0 0 [] 15

/-- Scenario token with initiative 16 for the turn-order claim. -/
def tokenInit16 : Token := mkToken "B16" "Bravo" false 1 0 [] 16

/-- Scenario token with initiative 12 for the turn-order claim. -/
def tokenInit12 : Token := mkToken "C12" "Charlie" false 2 0 [] 12

/-- Selected Rogue of the sneak-attack highlight scenario: at (0, 0),
non-enemy, tagged "Sneak Attack Ready". -/
def rogueC2 : Token := mkToken "R" "Rogue" false 0 0 ["Sneak Attack Ready"] 0

/-- Non-enemy Fighter at (1, 0) of the highlight scenario. -/
def fighterC2 : Token := mkToken "F" "Fighter" false 1 0 [] 0

/-- Enemy E1 at (1, 1), adjacent to the Fighter. -/
def enemyOneC2 : Token := mkToken "E1" "E1" true 1 1 [] 0

/-- Enemy E2 at (5, 5), far from every ally. -/
def enemyTwoC2 : Token := mkToken "E2" "E2" true 5 5 [] 0

/-- Token list of the highlight scenario. -/
def tokensC2 : List Token := [rogueC2, fighterC2, enemyOneC2, enemyTwoC2]

/-- Token carrying a multi-aura entry with radiusCells 0 and a valid key
whose custom effect string is "Scorch". -/
def tokenZeroAura : Token :=
  { mkToken "Z" "Cleric" false 0 0 [] 0 with
    auraPresets := [{ key := some "custom"
                      r := some 0
                      affects := "allies"
                      name := ""
                      effects := ["Scorch"]
                      value := none }] }

/-- Token whose aura emits the custom string "Zap" while the token also
carries the manual condition "Zap": exercises duplicate preservation. -/
def tokenDup : Token :=
  { mkToken "W" "Wizard" false 0 0 ["Zap"] 0 with
    auraPresets := [{ key := some "custom"
                      r := some 2
                      affects := "all"
                      name := ""
                      effects := ["Zap"]
                      value := none }] }

/-- Attacker of the flanking-implication scenario, NOT a member of the token
list used in the counterexample. -/
def ghostAttacker : Token := mkToken "X" "Xan" false 0 0 [] 0

/-- Enemy target at (1, 0) of the flanking-implication scenario. -/
def targetC10 : Token := mkToken "T" "Troll" true 1 0 [] 0

/-- Ally of the attacker at (2, 0), opposite the attacker across the target. -/
def allyC10 : Token := mkToken "B" "Bard" false 2 0 [] 0

/-- Lingering zone whose ownerId matches no token ("GONE"), with an
"allies" filter. -/
def zoneGone : AOE :=
  { id := "z1"
    ownerId := "GONE"
    type := "circle"
    start := ⟨1/2, 1/2⟩
    end_ := ⟨5/2, 1/2⟩
    enabled := true
    label := "Lingering Circle"
    affects := "allies"
    effects := ["Burn"] }

/- ================= Helper lemmas (shared) ================= -/

/-- A Boolean conditional returning the truth value of its decidable
condition equals true exactly when the condition holds. -/
lemma iteB_eq_true_iff (P : Prop) [Decidable P] : (if P then true else false) = true ↔ P := by
  split <;> simp [*]

/-- A Boolean conditional returning the truth value of its decidable
condition equals false exactly when the condition fails. -/
lemma iteB_eq_false_iff (P : Prop) [Decidable P] : (if P then true else false) = false ↔ ¬P := by
  split <;> simp [*]

/-- The rational encoding agrees with the real square root. -/
lemma sqrtLeSqrtAdd_iff_sqrt (a b c : ℚ) (ha : 0 ≤ a) (hb : 0 ≤ b) (hc : 0 ≤ c) :
    sqrtLeSqrtAdd a b c = true ↔
      Real.sqrt (a : ℝ) ≤ Real.sqrt (b : ℝ) + (c : ℝ) := by
  have ha' : (0:ℝ) ≤ (a:ℝ) := by exact_mod_cast ha
  have hb' : (0:ℝ) ≤ (b:ℝ) := by exact_mod_cast hb
  have hc' : (0:ℝ) ≤ (c:ℝ) := by exact_mod_cast hc
  have hsa := Real.sqrt_nonneg (a:ℝ)
  have hsb := Real.sqrt_nonneg (b:ℝ)
  have hsa2 : Real.sqrt (a:ℝ) ^ 2 = (a:ℝ) := Real.sq_sqrt ha'
  have hsb2 : Real.sqrt (b:ℝ) ^ 2 = (b:ℝ) := Real.sq_sqrt hb'
  rw [sqrtLeSqrtAdd, iteB_eq_true_iff]
  constructor
  · rintro (h | h)
    · have h' : ((a:ℝ) - b - c ^ 2 : ℝ) ≤ 0 := by exact_mod_cast h
      nlinarith [sq_nonneg (Real.sqrt (a:ℝ) - Real.sqrt (b:ℝ) - (c:ℝ)),
        sq_nonneg (Real.sqrt (a:ℝ) + Real.sqrt (b:ℝ) + (c:ℝ)),
        mul_nonneg hc' hsb]
    · have h' : (((a:ℝ) - b - c ^ 2) ^ 2 : ℝ) ≤ 4 * c ^ 2 * b := by exact_mod_cast h
      have hd : ((a:ℝ) - b - c ^ 2 : ℝ) ≤ 2 * c * Real.sqrt (b:ℝ) := by
        nlinarith [mul_nonneg hc' hsb, sq_nonneg ((a:ℝ) - b - c ^ 2 - 2 * c * Real.sqrt (b:ℝ)),
          sq_nonneg ((a:ℝ) - b - c ^ 2 + 2 * c * Real.sqrt (b:ℝ))]
      nlinarith [sq_nonneg (Real.sqrt (a:ℝ) - Real.sqrt (b:ℝ) - (c:ℝ)),
        sq_nonneg (Real.sqrt (a:ℝ) + Real.sqrt (b:ℝ) + (c:ℝ)),
        mul_nonneg hc' hsb]
  · intro h
    have hd : ((a:ℝ) - b - c ^ 2 : ℝ) ≤ 2 * c * Real.sqrt (b:ℝ) := by
      nlinarith [mul_nonneg hc' hsb]
    by_cases hd0 : ((a:ℚ) - b - c ^ 2 : ℚ) ≤ 0
    · exact Or.inl hd0
    · right
      have hd0' : (0:ℝ) < ((a:ℝ) - b - c ^ 2 : ℝ) := by
        push_neg at hd0
        exact_mod_cast hd0
      have : (((a:ℝ) - b - c ^ 2) ^ 2 : ℝ) ≤ 4 * c ^ 2 * b := by
        nlinarith [mul_nonneg hc' hsb]
      exact_mod_cast this

/-- The circle predicate agrees with the source's real-valued formulation
Math.hypot(dx, dy) <= radiusCells + 1e-6. -/
lemma tokenInsideCircle_iff_sqrt (token : Token) (center : Pt) (radiusCells : ℚ) :
    tokenInsideCircle token center radiusCells = true ↔
      Real.sqrt (centerDistSq token center : ℝ) ≤ ((radiusCells + 1/1000000 : ℚ) : ℝ) := by
  have hd : (0:ℝ) ≤ (centerDistSq token center : ℝ) := by
    have : (0:ℚ) ≤ centerDistSq token center := by
      rw [centerDistSq]; positivity
    exact_mod_cast this
  rw [tokenInsideCircle, iteB_eq_true_iff]
  constructor
  · rintro ⟨h0, h1⟩
    have h0' : (0:ℝ) ≤ ((radiusCells + 1/1000000 : ℚ) : ℝ) := by exact_mod_cast h0
    have h1' : (centerDistSq token center : ℝ) ≤ ((radiusCells + 1/1000000 : ℚ) : ℝ) ^ 2 := by
      exact_mod_cast h1
    calc Real.sqrt (centerDistSq token center : ℝ)
        ≤ Real.sqrt (((radiusCells + 1/1000000 : ℚ) : ℝ) ^ 2) := Real.sqrt_le_sqrt h1'
      _ = ((radiusCells + 1/1000000 : ℚ) : ℝ) := Real.sqrt_sq h0'
  · intro h
    have h0' : (0:ℝ) ≤ ((radiusCells + 1/1000000 : ℚ) : ℝ) :=
      le_trans (Real.sqrt_nonneg _) h
    have h0 : (0:ℚ) ≤ radiusCells + 1/1000000 := by exact_mod_cast h0'
    refine ⟨h0, ?_⟩
    have hs := Real.sq_sqrt hd
    have hsn := Real.sqrt_nonneg (centerDistSq token center : ℝ)
    have : (centerDistSq token center : ℝ) ≤ ((radiusCells + 1/1000000 : ℚ) : ℝ) ^ 2 := by
      nlinarith
    exact_mod_cast this

/-- Appending a contribution per element inside a left fold is the same as
appending the flattened contributions. -/
lemma foldl_append_eq_flatMap {α β : Type} (f : α → List β) (l : List α) (init : List β) :
    l.foldl (fun acc x => acc ++ f x) init = init ++ l.flatMap f := by
  induction l generalizing init with
  | nil => simp
  | cons x xs ih => simp [List.foldl_cons, ih, List.flatMap_cons]

/-- Pushing every element of a list inside a left fold appends that list. -/
lemma foldl_append_singleton {α : Type} (l : List α) (init : List α) :
    l.foldl (fun acc c => acc ++ [c]) init = init ++ l := by
  induction l generalizing init with
  | nil => simp
  | cons x xs ih => simp [List.foldl_cons, ih]

/-- The four push phases of the per-token body of computeTokenEffects
produce exactly the concatenation aura contributions ++ zone contributions
++ manual conditions ++ flanking advisory. -/
lemma effectsForToken_decomp (tokens : List Token) (auras : List Aura) (aoes : List AOE)
    (t : Token) :
    effectsForToken tokens auras aoes t
      = auras.flatMap (auraContribution (byId tokens) t)
        ++ aoes.flatMap (zoneContribution (byId tokens) t)
        ++ t.conditions
        ++ if isFlanked t tokens then [flankedAdvisory] else [] := by
  simp only [effectsForToken, foldl_append_eq_flatMap, foldl_append_singleton]
  split <;> simp [List.append_assoc]

/-- A fold looking up an id over tokens none of which carries that id
returns its accumulator. -/
lemma byId_eq_none (tokens : List Token) (i : String) (h : ∀ u ∈ tokens, u.id ≠ i) :
    byId tokens i = none := by
  unfold byId
  suffices haux : ∀ (l : List Token) (acc : Option Token), (∀ u ∈ l, u.id ≠ i) →
      l.foldl (fun acc t => if t.id = i then some t else acc) acc = acc from
    haux tokens none h
  intro l
  induction l with
  | nil => intro acc _; rfl
  | cons x xs ih =>
      intro acc hl
      rw [List.foldl_cons, if_neg (hl x (by simp))]
      exact ih acc fun u hu => hl u (by simp [hu])

/-- Being opposite around a target is symmetric in the two flankers. -/
lemma isOppositeAroundTarget_symm (target a b : Token)
    (h : isOppositeAroundTarget target a b = true) :
    isOppositeAroundTarget target b a = true := by
  simp only [isOppositeAroundTarget] at h ⊢
  split at h
  case isFalse => exact absurd h (by simp)
  case isTrue hadj =>
    rw [Bool.and_eq_true] at hadj
    rw [if_pos (by rw [Bool.and_eq_true]; exact ⟨hadj.2, hadj.1⟩)]
    split at h
    case isTrue => exact absurd h (by simp)
    case isFalse hz =>
      rw [iteB_eq_true_iff] at h
      rw [if_neg, iteB_eq_true_iff]
      · omega
      · rintro ⟨h2x, h2y⟩
        exact hz ⟨by omega, by omega⟩

/-- If two distinct members of a list are opposite around the target, the
source's pairwise double loop finds an opposite pair. -/
lemma anyOppositePair_of_mem (target x y : Token) (l : List Token)
    (hx : x ∈ l) (hy : y ∈ l) (hne : x ≠ y)
    (hopp : isOppositeAroundTarget target x y = true) :
    anyOppositePair target l = true := by
  induction l with
  | nil => simp at hx
  | cons z zs ih =>
      simp only [anyOppositePair, Bool.or_eq_true]
      rcases List.mem_cons.1 hx with rfl | hx'
      · have hy' : y ∈ zs := by
          rcases List.mem_cons.1 hy with rfl | h
          · exact absurd rfl hne
          · exact h
        exact Or.inl (List.any_eq_true.2 ⟨y, hy', hopp⟩)
      · rcases List.mem_cons.1 hy with heq | hy'
        · subst heq
          exact Or.inl (List.any_eq_true.2
            ⟨x, hx', isOppositeAroundTarget_symm target x y hopp⟩)
        · exact Or.inr (ih hx' hy')

/-- Re-snapping an exact cell-center translated by a whole number of cells
lands on the cell center translated by that number. -/
lemma snapCellCenter_int_add_half (n k : ℤ) :
    snapCellCenter ((n : ℚ) + 1/2 + (k : ℚ)) = ((n + k : ℤ) : ℚ) + 1/2 := by
  unfold snapCellCenter
  have h1 : ((n : ℚ) + 1/2 + (k : ℚ)) = ((n + k : ℤ) : ℚ) + 1/2 := by push_cast; ring
  have h2 : ⌊((n + k : ℤ) : ℚ) + 1/2⌋ = n + k := by
    rw [add_comm, Int.floor_add_int]
    norm_num
  rw [h1, h2]

/-- The earlier snapshot's cone test classifies a point coincident with the
apex as outside: the zero-length u vector makes the guarded cosine 0, the
angle acos 0 = pi/2, and pi/2 exceeds the 30 degree half-angle plus the
1e-6 tolerance. -/
lemma tokenInsideConeV1_apex_false (t : Token) (s e : Pt)
    (hx : t.x + 1/2 = s.gx) (hy : t.y + 1/2 = s.gy) :
    ¬ tokenInsideConeV1 t s e 60 := by
  intro h
  have hux : (t.x : ℝ) + 1/2 - (s.gx : ℝ) = 0 := by
    have hc := congrArg (fun q : ℚ => (q : ℝ)) hx
    push_cast at hc
    linarith
  have huy : (t.y : ℝ) + 1/2 - (s.gy : ℝ) = 0 := by
    have hc := congrArg (fun q : ℚ => (q : ℝ)) hy
    push_cast at hc
    linarith
  simp only [tokenInsideConeV1] at h
  rw [hux, huy] at h
  have h00 : ((0:ℝ) ^ 2 + 0 ^ 2) = 0 := by norm_num
  rw [h00, Real.sqrt_zero] at h
  have hsv := Real.sqrt_nonneg (((e.gx : ℝ) - (s.gx : ℝ)) ^ 2 + ((e.gy : ℝ) - (s.gy : ℝ)) ^ 2)
  have hlv : (0:ℝ) <
      (if Real.sqrt (((e.gx : ℝ) - (s.gx : ℝ)) ^ 2 + ((e.gy : ℝ) - (s.gy : ℝ)) ^ 2) = 0
        then (1/1000000000 : ℝ)
        else Real.sqrt (((e.gx : ℝ) - (s.gx : ℝ)) ^ 2 + ((e.gy : ℝ) - (s.gy : ℝ)) ^ 2)) := by
    split
    · norm_num
    · rename_i hne
      exact lt_of_le_of_ne hsv (Ne.symm hne)
  rw [if_neg (by push_neg; linarith)] at h
  rw [mul_zero] at h
  norm_num [min_def, max_def, Real.arccos_zero] at h
  nlinarith [Real.pi_gt_three]

/- ================= Claim theorems ================= -/

/-- C7 counterexample.  With zoom 1 and cell size 1 (both nonzero, as the
claim requires) but device pixel ratio 0, the round trip
worldToScreenPx after screenPxToWorld does not return the input point, so
the claim quantified over every device pixel ratio fails.  In the rational
model division by the zero cell size yields 0 and the trip returns (0, 0);
in JavaScript the same inputs yield NaN coordinates — in both semantics the
result differs from the input point (1, 1). -/
theorem screen_world_roundtrip_dpr_zero_cex :
    (⟨1, 0, 0⟩ : View).zoom ≠ 0 ∧ (⟨1⟩ : Grid).sizePx ≠ 0 ∧
      worldToScreenPx (screenPxToWorld 1 1 ⟨1, 0, 0⟩ ⟨1⟩ 0).1
        (screenPxToWorld 1 1 ⟨1, 0, 0⟩ ⟨1⟩ 0).2 ⟨1, 0, 0⟩ ⟨1⟩ 0 ≠ (1, 1) := by
  refine ⟨by norm_num, by norm_num, ?_⟩
  simp only [worldToScreenPx, screenPxToWorld]
  norm_num

/-- C7 (amended): for every view with nonzero zoom, grid with nonzero cell
size and NONZERO device pixel ratio, worldToScreenPx is the exact inverse of
screenPxToWorld on every screen point (exact over the rationals). -/
theorem screen_world_roundtrip (view : View) (grid : Grid) (dpr sx sy : ℚ)
    (hz : view.zoom ≠ 0) (hs : grid.sizePx ≠ 0) (hd : dpr ≠ 0) :
    worldToScreenPx (screenPxToWorld sx sy view grid dpr).1
      (screenPxToWorld sx sy view grid dpr).2 view grid dpr = (sx, sy) := by
  have hcell : grid.sizePx * view.zoom * dpr ≠ 0 :=
    mul_ne_zero (mul_ne_zero hs hz) hd
  simp only [worldToScreenPx, screenPxToWorld]
  rw [Prod.mk.injEq]
  constructor <;> field_simp

/-- C7 witness: the round trip at a concrete view, grid, nonzero dpr and
screen point. -/
theorem screen_world_roundtrip_witness :
    worldToScreenPx (screenPxToWorld 7 9 ⟨2, 3, 4⟩ ⟨5⟩ 1).1
      (screenPxToWorld 7 9 ⟨2, 3, 4⟩ ⟨5⟩ 1).2 ⟨2, 3, 4⟩ ⟨5⟩ 1 = (7, 9) :=
  screen_world_roundtrip ⟨2, 3, 4⟩ ⟨5⟩ 1 7 9 (by norm_num) (by norm_num) (by norm_num)

/-- C5: for a nonnegative radius, circle membership is exactly "squared
distance at most the squared tolerant radius" (the rational form of
Euclidean distance at most r + 1e-6, see tokenInsideCircle_iff_sqrt); a
token at distance exactly r is included and a token at distance r + 0.01 is
excluded. -/
theorem tokenInsideCircle_boundary (t : Token) (c : Pt) (r : ℚ) (hr : 0 ≤ r) :
    (tokenInsideCircle t c r = true ↔ centerDistSq t c ≤ (r + 1/1000000) ^ 2)
    ∧ (centerDistSq t c = r ^ 2 → tokenInsideCircle t c r = true)
    ∧ (centerDistSq t c = (r + 1/100) ^ 2 → tokenInsideCircle t c r = false) := by
  have h0 : (0:ℚ) ≤ r + 1/1000000 := by linarith
  refine ⟨?_, ?_, ?_⟩
  · rw [tokenInsideCircle, iteB_eq_true_iff]
    exact ⟨fun h => h.2, fun h => ⟨h0, h⟩⟩
  · intro h
    rw [tokenInsideCircle, iteB_eq_true_iff]
    refine ⟨h0, ?_⟩
    rw [h]
    nlinarith
  · intro h
    rw [tokenInsideCircle, iteB_eq_false_iff]
    rintro ⟨-, hle⟩
    rw [h] at hle
    nlinarith

/-- C5 witness: radius 2, token center (1/2, 1/2); a circle center at
distance exactly 2 includes the token, one at distance 2.01 excludes it. -/
theorem tokenInsideCircle_boundary_witness :
    tokenInsideCircle (mkToken "C5" "C5" false 0 0 [] 0) ⟨5/2, 1/2⟩ 2 = true
    ∧ tokenInsideCircle (mkToken "C5" "C5" false 0 0 [] 0) ⟨251/100, 1/2⟩ 2 = false :=
  ⟨(tokenInsideCircle_boundary (mkToken "C5" "C5" false 0 0 [] 0) ⟨5/2, 1/2⟩ 2
      (by norm_num)).2.1 (by norm_num [centerDistSq, mkToken]),
   (tokenInsideCircle_boundary (mkToken "C5" "C5" false 0 0 [] 0) ⟨251/100, 1/2⟩ 2
      (by norm_num)).2.2 (by norm_num [centerDistSq, mkToken])⟩

/-- C8: one step of the zone-drag update on a zone whose anchors are exact
cell centers translates both anchors by the same integer cell vector
(floor of pointer world position minus floor of drag-start world position),
leaves the anchor distance — hence a circle zone's radius — unchanged, and
keeps both anchors at cell-center coordinates of the form m + 1/2. -/
theorem dragAOE_translates (a b c d : ℤ) (mw w : ℚ × ℚ) :
    dragAOEUpdate (⟨(a : ℚ) + 1/2, (b : ℚ) + 1/2⟩, ⟨(c : ℚ) + 1/2, (d : ℚ) + 1/2⟩) mw w
      = (⟨((a + (⌊w.1⌋ - ⌊mw.1⌋) : ℤ) : ℚ) + 1/2, ((b + (⌊w.2⌋ - ⌊mw.2⌋) : ℤ) : ℚ) + 1/2⟩,
         ⟨((c + (⌊w.1⌋ - ⌊mw.1⌋) : ℤ) : ℚ) + 1/2, ((d + (⌊w.2⌋ - ⌊mw.2⌋) : ℤ) : ℚ) + 1/2⟩)
    ∧ ((dragAOEUpdate (⟨(a : ℚ) + 1/2, (b : ℚ) + 1/2⟩, ⟨(c : ℚ) + 1/2, (d : ℚ) + 1/2⟩) mw w).2.gx
          - (dragAOEUpdate (⟨(a : ℚ) + 1/2, (b : ℚ) + 1/2⟩, ⟨(c : ℚ) + 1/2, (d : ℚ) + 1/2⟩) mw w).1.gx) ^ 2
        + ((dragAOEUpdate (⟨(a : ℚ) + 1/2, (b : ℚ) + 1/2⟩, ⟨(c : ℚ) + 1/2, (d : ℚ) + 1/2⟩) mw w).2.gy
          - (dragAOEUpdate (⟨(a : ℚ) + 1/2, (b : ℚ) + 1/2⟩, ⟨(c : ℚ) + 1/2, (d : ℚ) + 1/2⟩) mw w).1.gy) ^ 2
      = (((c : ℚ) + 1/2) - ((a : ℚ) + 1/2)) ^ 2 + (((d : ℚ) + 1/2) - ((b : ℚ) + 1/2)) ^ 2 := by
  have h : dragAOEUpdate (⟨(a : ℚ) + 1/2, (b : ℚ) + 1/2⟩, ⟨(c : ℚ) + 1/2, (d : ℚ) + 1/2⟩) mw w
      = (⟨((a + (⌊w.1⌋ - ⌊mw.1⌋) : ℤ) : ℚ) + 1/2, ((b + (⌊w.2⌋ - ⌊mw.2⌋) : ℤ) : ℚ) + 1/2⟩,
         ⟨((c + (⌊w.1⌋ - ⌊mw.1⌋) : ℤ) : ℚ) + 1/2, ((d + (⌊w.2⌋ - ⌊mw.2⌋) : ℤ) : ℚ) + 1/2⟩) := by
    simp only [dragAOEUpdate, snapCellCenter_int_add_half]
  refine ⟨h, ?_⟩
  rw [h]
  push_cast
  ring

/-- C9: with initiatives [15, 16, 12] the descending order is
[16, 15, 12] and the cursor at index 1 points at the initiative-15 token;
deleting the initiative-12 token (the source deletes by filtering the id
out), re-deriving the order and clamping the cursor leaves it at index 1,
still pointing at the initiative-15 token. -/
theorem turn_cursor_stable_after_delete :
    (sortedTokens [tokenInit15, tokenInit16, tokenInit12]).map Token.id
        = ["B16", "A15", "C12"]
    ∧ ((sortedTokens [tokenInit15, tokenInit16, tokenInit12]).map Token.id)[1]?
        = some "A15"
    ∧ (sortedTokens ([tokenInit15, tokenInit16, tokenInit12].filter
          fun t => t.id != "C12")).map Token.id = ["B16", "A15"]
    ∧ clampTurnIndex 1 (sortedTokens ([tokenInit15, tokenInit16, tokenInit12].filter
          fun t => t.id != "C12")).length = 1
    ∧ ((sortedTokens ([tokenInit15, tokenInit16, tokenInit12].filter
          fun t => t.id != "C12")).map Token.id)[clampTurnIndex 1
            (sortedTokens ([tokenInit15, tokenInit16, tokenInit12].filter
              fun t => t.id != "C12")).length]? = some "A15" := by
  decide

/-- C1: computeTokenEffects maps each token to the concatenation, in order,
of all aura contributions (in aura-source iteration order), all zone
contributions (in zone iteration order; a disabled zone contributes the
empty list), the token's manual conditions in stored order, and the
flanking advisory exactly when the token is flanked; and for every member
token and every string, the number of occurrences in the output is the sum
of the occurrences in the four parts — no de-duplication across sources. -/
theorem computeTokenEffects_concat_order (tokens : List Token) (auras : List Aura)
    (aoes : List AOE) :
    computeTokenEffects tokens auras aoes
      = tokens.map (fun t =>
          (t.id,
            auras.flatMap (auraContribution (byId tokens) t)
              ++ aoes.flatMap (zoneContribution (byId tokens) t)
              ++ t.conditions
              ++ if isFlanked t tokens then [flankedAdvisory] else []))
    ∧ ∀ t ∈ tokens, ∀ s : String,
        (effectsForToken tokens auras aoes t).count s
          = (auras.flatMap (auraContribution (byId tokens) t)).count s
            + (aoes.flatMap (zoneContribution (byId tokens) t)).count s
            + t.conditions.count s
            + (if isFlanked t tokens then [flankedAdvisory] else []).count s := by
  constructor
  · simp only [computeTokenEffects, effectsForToken_decomp]
  · intro t _ s
    rw [effectsForToken_decomp]
    simp only [List.count_append]

/-- C1 witness: a token whose aura emits "Zap" and which also carries the
manual condition "Zap" shows the string twice in the raw output. -/
theorem computeTokenEffects_concat_order_witness :
    (effectsForToken [tokenDup] (computeAuraIndex [tokenDup]) [] tokenDup).count "Zap" = 2 := by
  have h := (computeTokenEffects_concat_order [tokenDup] (computeAuraIndex [tokenDup]) []).2
    tokenDup (by simp) "Zap"
  rw [h]
  norm_num [computeAuraIndex, getTokenAuraEntries, tokenDup, mkToken, auraContribution,
    byId, isAffectedBy, isAllyOf, tokenInsideCircle, centerDistSq, presetEffectStrings,
    isFlanked, anyOppositePair, List.flatMap_cons, List.flatMap_nil, List.filterMap_cons,
    List.filterMap_nil, List.count_cons, List.count_nil, List.foldl]
  decide

/-- C2 counterexample: in the later snapshot's computeHighlightTargets the
"Sneak Attack Ready" tag highlights every enemy, so the far-away enemy E2
IS in the returned set, contradicting the claim that the set does not
contain E2. -/
theorem highlight_scenario_cex :
    "E2" ∈ computeHighlightTargets rogueC2 tokensC2 := by
  norm_num [computeHighlightTargets, tokensC2, rogueC2, fighterC2, enemyOneC2, enemyTwoC2,
    mkToken, addSet, attackerHasFlankingAdv, isAllyOf, isAdjacentCells,
    isOppositeAroundTarget, sign1, maxQ, absQ, List.foldl, List.filter, List.any,
    List.contains]
  decide

/-- C2 (amended): the earlier snapshot's computeHighlightTargetsV1 (the
adjacency-to-ally sneak-attack rule) returns a set containing E1 and not
E2; the later snapshot's computeHighlightTargets returns a set containing
both E1 and E2, because the manual sneak-attack tag highlights all
enemies. -/
theorem highlight_scenario_amended :
    ("E1" ∈ computeHighlightTargetsV1 rogueC2 tokensC2
      ∧ "E2" ∉ computeHighlightTargetsV1 rogueC2 tokensC2)
    ∧ ("E1" ∈ computeHighlightTargets rogueC2 tokensC2
      ∧ "E2" ∈ computeHighlightTargets rogueC2 tokensC2) := by
  refine ⟨⟨?_, ?_⟩, ?_, ?_⟩ <;>
    (norm_num [computeHighlightTargetsV1, computeHighlightTargets, tokensC2, rogueC2,
      fighterC2, enemyOneC2, enemyTwoC2, mkToken, addSet, attackerHasFlankingAdv,
      isAllyOf, isAdjacentCells, isOppositeAroundTarget, sign1, maxQ, absQ,
      List.foldl, List.filter, List.any, List.contains]
     try decide)

/-- C3 counterexample: an auraPresets entry with radiusCells 0 and a valid
key still contributes its effect strings — here the owner itself, at
distance 0 from the aura center, receives "Scorch" from its own radius-0
aura, contradicting the claim that a radius-0 aura contributes nothing. -/
theorem aura_zero_radius_cex :
    computeTokenEffects [tokenZeroAura] (computeAuraIndex [tokenZeroAura]) []
      = [("Z", ["Scorch"])] := by
  norm_num [computeTokenEffects, effectsForToken, computeAuraIndex, getTokenAuraEntries,
    tokenZeroAura, mkToken, byId, auraContribution, isAffectedBy, isAllyOf,
    tokenInsideCircle, centerDistSq, presetEffectStrings, isFlanked, anyOppositePair,
    List.flatMap_cons, List.flatMap_nil, List.foldl, List.filter, List.filterMap_cons,
    List.filterMap_nil]
  decide

/-- C3 (amended): the legacy single-aura path contributes nothing when its
radius is 0, an auraPresets entry with a missing key is dropped, and when
every token's aura entries are empty the aura index is empty and no aura
contribution reaches any token's effect list; but (see the counterexample)
a multi-aura entry with radiusCells 0 and a valid key is NOT dropped and
still reaches tokens within the 1e-6 tolerance of the owner's center. -/
theorem aura_degenerate_amended (t : Token) (tokens : List Token) (aoes : List AOE) :
    (t.auraPresets = [] → t.auraRadiusCells = 0 → getTokenAuraEntries t = [])
    ∧ (t.auraPresets ≠ [] → (∀ e ∈ t.auraPresets, e.key = none) →
        getTokenAuraEntries t = [])
    ∧ ((∀ u ∈ tokens, getTokenAuraEntries u = []) →
        computeAuraIndex tokens = []
        ∧ ∀ u ∈ tokens,
            effectsForToken tokens (computeAuraIndex tokens) aoes u
              = aoes.flatMap (zoneContribution (byId tokens) u) ++ u.conditions
                ++ if isFlanked u tokens then [flankedAdvisory] else []) := by
  refine ⟨?_, ?_, ?_⟩
  · intro h1 h2
    rw [getTokenAuraEntries, if_neg (by simp [h1]), if_neg (by rw [h2]; simp)]
  · intro h1 h2
    rw [getTokenAuraEntries, if_pos h1]
    rw [List.filterMap_eq_nil_iff]
    intro e he
    rw [h2 e he]
  · intro h
    have hidx : computeAuraIndex tokens = [] := by
      rw [computeAuraIndex, List.flatMap_eq_nil_iff]
      intro u hu
      rw [h u hu]
      rfl
    refine ⟨hidx, ?_⟩
    intro u _
    rw [effectsForToken_decomp, hidx]
    simp

/-- C3 witness: a token with no auraPresets entries and legacy radius 0
yields no aura entries and an empty aura index. -/
theorem aura_degenerate_amended_witness :
    getTokenAuraEntries (mkToken "D" "Druid" false 0 0 [] 0) = []
    ∧ computeAuraIndex [mkToken "D" "Druid" false 0 0 [] 0] = [] := by
  have h := aura_degenerate_amended (mkToken "D" "Druid" false 0 0 [] 0)
    [mkToken "D" "Druid" false 0 0 [] 0] []
  have h1 : getTokenAuraEntries (mkToken "D" "Druid" false 0 0 [] 0) = [] :=
    h.1 rfl rfl
  refine ⟨h1, ?_⟩
  refine (h.2.2 ?_).1
  intro u hu
  rw [List.mem_singleton] at hu
  rw [hu]
  exact h1

/-- C4: for an enabled zone whose ownerId matches no token, the owner
lookup yields none; the allegiance filter then never passes for "allies" or
"enemies" — so the zone contributes nothing — and always passes for "all".
All functions involved are total, so no error can reach the caller. -/
theorem zone_missing_owner (tokens : List Token) (t : Token) (z : AOE)
    (hen : z.enabled = true) (h : ∀ u ∈ tokens, u.id ≠ z.ownerId) :
    byId tokens z.ownerId = none
    ∧ (z.affects = "allies" ∨ z.affects = "enemies" →
        isAffectedBy z.affects (byId tokens z.ownerId) t = false
        ∧ zoneContribution (byId tokens) t z = [])
    ∧ (z.affects = "all" → isAffectedBy z.affects (byId tokens z.ownerId) t = true) := by
  have hb := byId_eq_none tokens z.ownerId h
  refine ⟨hb, ?_, ?_⟩
  · intro ha
    have haff : isAffectedBy z.affects (byId tokens z.ownerId) t = false := by
      rcases ha with ha | ha <;> simp [isAffectedBy, ha, hb]
    refine ⟨haff, ?_⟩
    have hne : z.affects ≠ "" := by rcases ha with ha | ha <;> simp [ha]
    rw [zoneContribution, if_pos hen, if_neg]
    rw [if_neg hne]
    simp [haff]
  · intro ha
    simp [isAffectedBy, ha]

/-- C4 witness: a concrete "allies" zone owned by the deleted id "GONE"
fails the filter and contributes nothing to a concrete token. -/
theorem zone_missing_owner_witness :
    isAffectedBy zoneGone.affects (byId [mkToken "T" "Tank" false 0 0 [] 0] zoneGone.ownerId)
        (mkToken "T" "Tank" false 0 0 [] 0) = false
    ∧ zoneContribution (byId [mkToken "T" "Tank" false 0 0 [] 0])
        (mkToken "T" "Tank" false 0 0 [] 0) zoneGone = [] := by
  have h := zone_missing_owner [mkToken "T" "Tank" false 0 0 [] 0]
    (mkToken "T" "Tank" false 0 0 [] 0) zoneGone rfl
    (by
      intro u hu
      rw [List.mem_singleton] at hu
      rw [hu]
      simp [mkToken, zoneGone])
  exact h.2.1 (Or.inl rfl)

/-- C6 counterexample: in the earlier snapshot's tokenInsideCone a point
coincident with the apex is classified as OUTSIDE the cone (the guarded
cosine is 0, acos 0 = pi/2 > 30 degrees), contradicting the claim that an
apex-coincident point is inside — here at the concrete cone with apex
(1/2, 1/2), axis end (3/2, 1/2), spread 60. -/
theorem cone_apex_cex :
    ¬ tokenInsideConeV1 (mkToken "A" "Apex" false 0 0 [] 0) ⟨1/2, 1/2⟩ ⟨3/2, 1/2⟩ 60 :=
  tokenInsideConeV1_apex_false _ _ _ (by norm_num [mkToken]) (by norm_num [mkToken])

/-- C6 (amended): for the 60 degree spread the program uses, the later
snapshot's tokenInsideCone classifies a point coincident with the apex as
inside (its early zero-length branch), while the earlier snapshot's version
classifies the same point as outside. -/
theorem cone_apex_amended (t : Token) (s e : Pt)
    (hx : t.x + 1/2 = s.gx) (hy : t.y + 1/2 = s.gy) :
    tokenInsideCone t s e = true ∧ ¬ tokenInsideConeV1 t s e 60 := by
  refine ⟨?_, tokenInsideConeV1_apex_false t s e hx hy⟩
  have hux : t.x + 1/2 - s.gx = 0 := by linarith
  have huy : t.y + 1/2 - s.gy = 0 := by linarith
  simp only [tokenInsideCone]
  rw [hux, huy]
  norm_num

/-- C6 witness: the amended statement at a concrete token and cone. -/
theorem cone_apex_amended_witness :
    tokenInsideCone (mkToken "B" "Base" false 2 3 [] 0) ⟨5/2, 7/2⟩ ⟨9/2, 7/2⟩ = true
    ∧ ¬ tokenInsideConeV1 (mkToken "B" "Base" false 2 3 [] 0) ⟨5/2, 7/2⟩ ⟨9/2, 7/2⟩ 60 :=
  cone_apex_amended _ _ _ (by norm_num [mkToken]) (by norm_num [mkToken])

/-- C10 counterexample: with an attacker that is NOT a member of the token
list, attackerHasFlankingAdv can hold while isFlanked fails — the list
contains only one opposing token (the attacker's ally), so the pairwise
flanking test finds no pair. -/
theorem flanking_adv_cex :
    attackerHasFlankingAdv ghostAttacker targetC10 [targetC10, allyC10] = true
    ∧ isFlanked targetC10 [targetC10, allyC10] = false := by
  constructor <;>
    norm_num [attackerHasFlankingAdv, isFlanked, anyOppositePair, ghostAttacker,
      targetC10, allyC10, mkToken, isAllyOf, isAdjacentCells, isOppositeAroundTarget,
      sign1, maxQ, absQ, List.filter, List.any]

/-- C10 (amended): whenever the attacker is a MEMBER of the token list and
attackerHasFlankingAdv attacker target tokens holds, isFlanked target
tokens also holds: the attacker and the found ally are two distinct
opposing tokens positioned opposite around the target. -/
theorem flanking_adv_implies_flanked (attacker target : Token) (tokens : List Token)
    (hmem : attacker ∈ tokens)
    (hadv : attackerHasFlankingAdv attacker target tokens = true) :
    isFlanked target tokens = true := by
  rw [attackerHasFlankingAdv, Bool.and_eq_true, Bool.and_eq_true] at hadv
  obtain ⟨⟨hnal, _⟩, hany⟩ := hadv
  rw [List.any_eq_true] at hany
  obtain ⟨b, hbmem, hbopp⟩ := hany
  rw [List.mem_filter] at hbmem
  obtain ⟨hbtok, hbcond⟩ := hbmem
  rw [Bool.and_eq_true] at hbcond
  obtain ⟨hbid, hbally⟩ := hbcond
  rw [Bool.not_eq_true'] at hnal
  have hbally' : b.isEnemy = attacker.isEnemy := by
    rw [isAllyOf, beq_iff_eq] at hbally
    exact hbally
  have hne : attacker.isEnemy ≠ target.isEnemy := by
    rw [isAllyOf, beq_eq_false_iff_ne] at hnal
    exact hnal
  have hbfoe : (!(isAllyOf b target)) = true := by
    rw [Bool.not_eq_true', isAllyOf, beq_eq_false_iff_ne]
    rw [hbally']
    exact hne
  have hafoe : (!(isAllyOf attacker target)) = true := by
    rw [Bool.not_eq_true', isAllyOf, beq_eq_false_iff_ne]
    exact hne
  have hban : attacker ≠ b := by
    intro hEq
    rw [bne_iff_ne] at hbid
    exact hbid (by rw [hEq])
  rw [isFlanked]
  apply anyOppositePair_of_mem target attacker b
  · rw [List.mem_filter]
    exact ⟨hmem, hafoe⟩
  · rw [List.mem_filter]
    exact ⟨hbtok, hbfoe⟩
  · exact hban
  · exact hbopp

/-- C10 witness: adding the attacker to the token list of the
counterexample scenario makes the target flanked. -/
theorem flanking_adv_implies_flanked_witness :
    isFlanked targetC10 [ghostAttacker, targetC10, allyC10] = true :=
  flanking_adv_implies_flanked ghostAttacker targetC10 [ghostAttacker, targetC10, allyC10]
    (List.mem_cons_self _ _)
    (by norm_num [attackerHasFlankingAdv, ghostAttacker, targetC10, allyC10, mkToken,
      isAllyOf, isAdjacentCells, isOppositeAroundTarget, sign1, maxQ, absQ,
      List.filter, List.any])

end CritHitMaps
